import Mathlib

/-!
Verification development for the TRANSCRI-O search and filter engine.

The definitions below are shallow embeddings of the search core found in
src/components/Explorer.tsx and src/unnamed/part_001 (the two files contain
textually identical copies of the search helpers): text normalization
(normalizeText), Levenshtein distance (getLevenshteinDistance), fuzzy term
matching (matchTerm), the boolean query tokenizer / shunting-yard compiler /
postfix evaluator (evaluateBooleanQuery), duration parsing
(parseDurationToSeconds), the per-session filter pipeline (filteredSessions,
from src/unnamed/part_001), and the sort stage comparator of
src/components/Explorer.tsx.

JavaScript host primitives are modelled explicitly: strings are Lean strings
viewed as lists of unicode scalar characters; String.prototype.toLowerCase
and String.prototype.normalize with NFD are modelled over the Basic Latin and
Latin-1 repertoire (identity on all other code points); parseInt, Number,
Array.prototype operations, regular expression scanning and Date arithmetic
are modelled by explicit executable functions, each documented at its
definition. NaN-valued numbers are modelled as none in Option Int, with the
JavaScript rule that every comparison against NaN is false.
-/

set_option maxRecDepth 8000

/-- Model of the JavaScript whitespace class (regex backslash-s and
String.prototype.trim): space, tab, line feed, vertical tab, form feed,
carriage return, no-break space and the byte order mark. -/
def jsWhitespace (c : Char) : Bool :=
  c = ' ' ∨ c = Char.ofNat 0x09 ∨ c = Char.ofNat 0x0A ∨ c = Char.ofNat 0x0B ∨
  c = Char.ofNat 0x0C ∨ c = Char.ofNat 0x0D ∨ c = Char.ofNat 0xA0 ∨ c = Char.ofNat 0xFEFF

/-- Helper for substring containment: does the needle occur at the very start
of the haystack. -/
def startsWithSub : List Char → List Char → Bool
  | [], _ => true
  | _ :: _, [] => false
  | a :: as, b :: bs => a = b && startsWithSub as bs

/-- Model of String.prototype.includes: containsSub needle haystack is true
exactly when needle occurs contiguously inside haystack. The empty needle is
contained in every string. -/
def containsSub (needle : List Char) : List Char → Bool
  | [] => needle.isEmpty
  | c :: t => startsWithSub needle (c :: t) || containsSub needle t

/-- Model of the JavaScript string less-than comparison: lexicographic on
code units (code points for the basic multilingual plane). -/
def lexLtChars : List Char → List Char → Bool
  | _, [] => false
  | [], _ :: _ => true
  | a :: as, b :: bs =>
    if a.toNat < b.toNat then true
    else if b.toNat < a.toNat then false
    else lexLtChars as bs

/-- JavaScript string comparison a less than b. -/
def jsStrLt (a b : String) : Bool := lexLtChars a.data b.data

/-- JavaScript string comparison a greater than or equal to b. -/
def jsStrGeB (a b : String) : Bool := !(lexLtChars a.data b.data)

/-- JavaScript string comparison a less than or equal to b. -/
def jsStrLeB (a b : String) : Bool := !(lexLtChars b.data a.data)

/-- Model of String.prototype.split with a single separator character:
pieces between separators are kept, including empty pieces at the ends and
between adjacent separators. -/
def splitOnChar (sep : Char) : List Char → List String
  | [] => [""]
  | c :: cs =>
    if c = sep then "" :: splitOnChar sep cs
    else
      match splitOnChar sep cs with
      | [] => [String.mk [c]]
      | p :: ps => String.mk (c :: p.data) :: ps

/-- Model of String.prototype.trim on a character list. -/
def jsTrimChars (l : List Char) : List Char :=
  ((l.dropWhile jsWhitespace).reverse.dropWhile jsWhitespace).reverse

/-- Model of String.prototype.trim. -/
def jsTrim (s : String) : String := String.mk (jsTrimChars s.data)

/-- Model of String.prototype.toLowerCase on one character, over the Basic
Latin and Latin-1 repertoire: uppercase A to Z and the uppercase Latin-1
letters U+00C0 to U+00DE (excluding the multiplication sign U+00D7) map to
the code point 32 higher; every other code point is left unchanged. -/
def jsToLower (c : Char) : Char :=
  if 0x41 ≤ c.toNat ∧ c.toNat ≤ 0x5A then Char.ofNat (c.toNat + 32)
  else if 0xC0 ≤ c.toNat ∧ c.toNat ≤ 0xDE ∧ c.toNat ≠ 0xD7 then Char.ofNat (c.toNat + 32)
  else c

/-- Canonical decomposition table for the precomposed Latin-1 letters, used
to model String.prototype.normalize with form NFD. Each entry maps a
precomposed letter to its base letter followed by its combining mark. -/
def nfdTable : List (Char × List Char) :=
  [ (Char.ofNat 0xC0, [Char.ofNat 0x41, Char.ofNat 0x300]),
    (Char.ofNat 0xC1, [Char.ofNat 0x41, Char.ofNat 0x301]),
    (Char.ofNat 0xC2, [Char.ofNat 0x41, Char.ofNat 0x302]),
    (Char.ofNat 0xC3, [Char.ofNat 0x41, Char.ofNat 0x303]),
    (Char.ofNat 0xC4, [Char.ofNat 0x41, Char.ofNat 0x308]),
    (Char.ofNat 0xC5, [Char.ofNat 0x41, Char.ofNat 0x30A]),
    (Char.ofNat 0xC7, [Char.ofNat 0x43, Char.ofNat 0x327]),
    (Char.ofNat 0xC8, [Char.ofNat 0x45, Char.ofNat 0x300]),
    (Char.ofNat 0xC9, [Char.ofNat 0x45, Char.ofNat 0x301]),
    (Char.ofNat 0xCA, [Char.ofNat 0x45, Char.ofNat 0x302]),
    (Char.ofNat 0xCB, [Char.ofNat 0x45, Char.ofNat 0x308]),
    (Char.ofNat 0xCC, [Char.ofNat 0x49, Char.ofNat 0x300]),
    (Char.ofNat 0xCD, [Char.ofNat 0x49, Char.ofNat 0x301]),
    (Char.ofNat 0xCE, [Char.ofNat 0x49, Char.ofNat 0x302]),
    (Char.ofNat 0xCF, [Char.ofNat 0x49, Char.ofNat 0x308]),
    (Char.ofNat 0xD1, [Char.ofNat 0x4E, Char.ofNat 0x303]),
    (Char.ofNat 0xD2, [Char.ofNat 0x4F, Char.ofNat 0x300]),
    (Char.ofNat 0xD3, [Char.ofNat 0x4F, Char.ofNat 0x301]),
    (Char.ofNat 0xD4, [Char.ofNat 0x4F, Char.ofNat 0x302]),
    (Char.ofNat 0xD5, [Char.ofNat 0x4F, Char.ofNat 0x303]),
    (Char.ofNat 0xD6, [Char.ofNat 0x4F, Char.ofNat 0x308]),
    (Char.ofNat 0xD9, [Char.ofNat 0x55, Char.ofNat 0x300]),
    (Char.ofNat 0xDA, [Char.ofNat 0x55, Char.ofNat 0x301]),
    (Char.ofNat 0xDB, [Char.ofNat 0x55, Char.ofNat 0x302]),
    (Char.ofNat 0xDC, [Char.ofNat 0x55, Char.ofNat 0x308]),
    (Char.ofNat 0xDD, [Char.ofNat 0x59, Char.ofNat 0x301]),
    (Char.ofNat 0xE0, [Char.ofNat 0x61, Char.ofNat 0x300]),
    (Char.ofNat 0xE1, [Char.ofNat 0x61, Char.ofNat 0x301]),
    (Char.ofNat 0xE2, [Char.ofNat 0x61, Char.ofNat 0x302]),
    (Char.ofNat 0xE3, [Char.ofNat 0x61, Char.ofNat 0x303]),
    (Char.ofNat 0xE4, [Char.ofNat 0x61, Char.ofNat 0x308]),
    (Char.ofNat 0xE5, [Char.ofNat 0x61, Char.ofNat 0x30A]),
    (Char.ofNat 0xE7, [Char.ofNat 0x63, Char.ofNat 0x327]),
    (Char.ofNat 0xE8, [Char.ofNat 0x65, Char.ofNat 0x300]),
    (Char.ofNat 0xE9, [Char.ofNat 0x65, Char.ofNat 0x301]),
    (Char.ofNat 0xEA, [Char.ofNat 0x65, Char.ofNat 0x302]),
    (Char.ofNat 0xEB, [Char.ofNat 0x65, Char.ofNat 0x308]),
    (Char.ofNat 0xEC, [Char.ofNat 0x69, Char.ofNat 0x300]),
    (Char.ofNat 0xED, [Char.ofNat 0x69, Char.ofNat 0x301]),
    (Char.ofNat 0xEE, [Char.ofNat 0x69, Char.ofNat 0x302]),
    (Char.ofNat 0xEF, [Char.ofNat 0x69, Char.ofNat 0x308]),
    (Char.ofNat 0xF1, [Char.ofNat 0x6E, Char.ofNat 0x303]),
    (Char.ofNat 0xF2, [Char.ofNat 0x6F, Char.ofNat 0x300]),
    (Char.ofNat 0xF3, [Char.ofNat 0x6F, Char.ofNat 0x301]),
    (Char.ofNat 0xF4, [Char.ofNat 0x6F, Char.ofNat 0x302]),
    (Char.ofNat 0xF5, [Char.ofNat 0x6F, Char.ofNat 0x303]),
    (Char.ofNat 0xF6, [Char.ofNat 0x6F, Char.ofNat 0x308]),
    (Char.ofNat 0xF9, [Char.ofNat 0x75, Char.ofNat 0x300]),
    (Char.ofNat 0xFA, [Char.ofNat 0x75, Char.ofNat 0x301]),
    (Char.ofNat 0xFB, [Char.ofNat 0x75, Char.ofNat 0x302]),
    (Char.ofNat 0xFC, [Char.ofNat 0x75, Char.ofNat 0x308]),
    (Char.ofNat 0xFD, [Char.ofNat 0x79, Char.ofNat 0x301]),
    (Char.ofNat 0xFF, [Char.ofNat 0x79, Char.ofNat 0x308]) ]

/-- Model of NFD canonical decomposition of a single character: table-driven
for the Latin-1 precomposed letters, identity elsewhere. -/
def jsNFDChar (c : Char) : List Char := (nfdTable.lookup c).getD [c]

/-- Character class of the regular expression range U+0300 to U+036F, the
combining diacritical marks block stripped by normalizeText. -/
def isCombining (c : Char) : Bool := 0x300 ≤ c.toNat ∧ c.toNat ≤ 0x36F

/-- Translation of normalizeText from src/components/Explorer.tsx line 310
(identical at src/unnamed/part_001 line 366): lowercase the string, apply NFD
canonical decomposition, then remove every character in the combining
diacritical marks block U+0300 to U+036F. -/
def normalizeText (s : String) : String :=
  String.mk (((s.data.map jsToLower).flatMap jsNFDChar).filter (fun c => !(isCombining c)))

/-- Lowercasing of a whole string, used by the session id filter which calls
String.prototype.toLowerCase on both sides. -/
def jsToLowerStr (s : String) : String := String.mk (s.data.map jsToLower)

/-- Character class of the regular expression word character (A to Z, a to z,
digits and underscore); its complement is the split pattern used by
matchTerm. -/
def isWordChar (c : Char) : Bool :=
  (0x41 ≤ c.toNat ∧ c.toNat ≤ 0x5A) ∨ (0x61 ≤ c.toNat ∧ c.toNat ≤ 0x7A) ∨
  (0x30 ≤ c.toNat ∧ c.toNat ≤ 0x39) ∨ c = '_'

/-- Model of String.prototype.split on the regular expression of one or more
non-word characters, as used in matchTerm: maximal runs of non-word
characters separate the pieces; a leading or trailing run contributes an
empty piece, runs are never split into several empty pieces. -/
def splitNW : List Char → List String
  | [] => [""]
  | c :: cs =>
    if isWordChar c then
      match splitNW cs with
      | [] => [String.mk [c]]
      | p :: ps => String.mk (c :: p.data) :: ps
    else
      match cs with
      | [] => ["", ""]
      | c2 :: _ => if isWordChar c2 then "" :: splitNW cs else splitNW cs

/-- One cell-by-cell pass of the Levenshtein dynamic program: given the
character b of the current row, the remaining characters of a, the value of
the cell immediately to the left, and the previous row starting at the
diagonal cell, produce the rest of the current row. -/
def levRowStep (bj : Char) : List Char → Nat → List Nat → List Nat
  | [], _, _ => []
  | _ :: _, _, [] => []
  | _ :: _, _, [_] => []
  | ai :: as, left, diag :: up :: rest =>
    let ind := if ai = bj then 0 else 1
    let v := Nat.min (left + 1) (Nat.min (up + 1) (diag + ind))
    v :: levRowStep bj as v (up :: rest)

/-- One full row of the Levenshtein dynamic program: row j is computed from
row j-1; its first cell is j. -/
def levRow (a : List Char) (prev : List Nat) (bj : Char) : List Nat :=
  match prev with
  | [] => []
  | p0 :: _ => (p0 + 1) :: levRowStep bj a (p0 + 1) prev

/-- Translation of getLevenshteinDistance from src/components/Explorer.tsx
line 317: the classic dynamic program with unit costs, rendered row by row.
Row 0 is 0..length a; each later row j is built from row j-1; the result is
the last cell of the last row. -/
def getLevenshteinDistance (aStr bStr : String) : Nat :=
  if aStr.length = 0 then bStr.length
  else if bStr.length = 0 then aStr.length
  else
    let row0 := List.range (aStr.length + 1)
    let fin := bStr.data.foldl (levRow aStr.data) row0
    fin.getLast?.getD 0

/-- Fuzzy-match threshold of matchTerm: 1 for normalized terms of length at
most 5, otherwise 2. -/
def fuzzThreshold (t : String) : Nat := if t.length ≤ 5 then 1 else 2

/-- Translation of matchTerm from src/components/Explorer.tsx line 338:
normalize the term; report a match when the content contains it as a
substring; otherwise, when the normalized term is longer than 3 characters
and contains no space character, split the content into words at non-word
characters and look for a word within the length window and Levenshtein
threshold. -/
def matchTerm (contentNormalized : String) (term : String) : Bool :=
  let termNorm := normalizeText term
  if containsSub termNorm.data contentNormalized.data then true
  else if decide (3 < termNorm.length) && !(termNorm.data.contains ' ') then
    splitNW contentNormalized.data |>.any (fun w =>
      if fuzzThreshold termNorm < ((w.length : Int) - (termNorm.length : Int)).natAbs then false
      else decide (getLevenshteinDistance w termNorm ≤ fuzzThreshold termNorm))
  else false

/-- Tokens produced by the query tokenizer: terms (quoted phrases and bare
words) and operator symbols. -/
inductive QToken where
  | term (v : String)
  | op (v : String)
deriving DecidableEq

/-- Character class of the third tokenizer alternative: any character that is
not whitespace and none of parenthesis, double quote, plus or minus. -/
def isTermChar (c : Char) : Bool :=
  !(jsWhitespace c || c = '(' || c = ')' || c = '"' || c = '+' || c = '-')

/-- Case-insensitive match of the operator word OR at the current position. -/
def isOpOR (c : Char) (cs : List Char) : Bool :=
  (c = 'O' || c = 'o') &&
    (match cs with
     | d :: _ => d = 'R' || d = 'r'
     | [] => false)

/-- Case-insensitive match of the operator word AND at the current position. -/
def isOpAND (c : Char) (cs : List Char) : Bool :=
  (c = 'A' || c = 'a') &&
    (match cs with
     | d :: e :: _ => (d = 'N' || d = 'n') && (e = 'D' || e = 'd')
     | _ => false)

/-- Case-insensitive match of the operator word NOT at the current position. -/
def isOpNOT (c : Char) (cs : List Char) : Bool :=
  (c = 'N' || c = 'n') &&
    (match cs with
     | d :: e :: _ => (d = 'O' || d = 'o') && (e = 'T' || e = 't')
     | _ => false)

/-- Fuel-indexed scanner replicating the global regular expression loop of
evaluateBooleanQuery. At each position the alternatives are tried in the
order of the source pattern: a quoted phrase (a double quote, one or more
non-quote characters, a double quote), then the operators left parenthesis,
right parenthesis, OR, AND, NOT, plus, minus (word operators matched without
regard to case and emitted uppercased), then a maximal run of term
characters; positions where no alternative matches are skipped. The fuel is
the length of the scanned list, and every step consumes at least one
character, so the fuel never runs out on the initial call. -/
def tokenizeF : Nat → List Char → List QToken
  | 0, _ => []
  | _ + 1, [] => []
  | fuel + 1, c :: cs =>
    if c = '"' then
      match cs.dropWhile (fun d => !(d = '"')) with
      | [] => tokenizeF fuel cs
      | _ :: after =>
        let inner := cs.takeWhile (fun d => !(d = '"'))
        if inner.isEmpty then tokenizeF fuel cs
        else QToken.term (String.mk inner) :: tokenizeF fuel after
    else if c = '(' then QToken.op "(" :: tokenizeF fuel cs
    else if c = ')' then QToken.op ")" :: tokenizeF fuel cs
    else if isOpOR c cs then QToken.op "OR" :: tokenizeF fuel (cs.drop 1)
    else if isOpAND c cs then QToken.op "AND" :: tokenizeF fuel (cs.drop 2)
    else if isOpNOT c cs then QToken.op "NOT" :: tokenizeF fuel (cs.drop 2)
    else if c = '+' then QToken.op "+" :: tokenizeF fuel cs
    else if c = '-' then QToken.op "-" :: tokenizeF fuel cs
    else if jsWhitespace c then tokenizeF fuel cs
    else QToken.term (String.mk (c :: cs.takeWhile isTermChar)) :: tokenizeF fuel (cs.dropWhile isTermChar)

/-- Tokenizer of evaluateBooleanQuery applied to a whole query. -/
def tokenize (q : List Char) : List QToken := tokenizeF q.length q

/-- Operator precedence record of evaluateBooleanQuery; a lookup miss models
the undefined value of a record access in JavaScript. -/
def precedenceOf (s : String) : Option Nat :=
  if s = "NOT" then some 3
  else if s = "-" then some 3
  else if s = "AND" then some 2
  else if s = "+" then some 2
  else if s = "OR" then some 1
  else if s = "(" then some 0
  else none

/-- JavaScript greater-or-equal on possibly undefined numbers: any comparison
involving undefined is false. -/
def geJS : Option Nat → Option Nat → Bool
  | some a, some b => decide (b ≤ a)
  | _, _ => false

/-- Shunting-yard loop of evaluateBooleanQuery. Terms go to the output; a
left parenthesis is pushed; a right parenthesis pops operators to the output
until a left parenthesis, which is discarded (popping on an empty stack is a
no-op); any other operator first pops all stack operators of greater or equal
precedence, then is pushed. At end of input the remaining stack is drained to
the output. The stack is kept top-first. -/
def shuntLoop : List QToken → List String → List QToken → List QToken
  | [], stack, out => out ++ stack.map QToken.op
  | QToken.term v :: ts, stack, out => shuntLoop ts stack (out ++ [QToken.term v])
  | QToken.op v :: ts, stack, out =>
    if v = "(" then shuntLoop ts ("(" :: stack) out
    else if v = ")" then
      let popped := stack.takeWhile (fun t => !(t = "("))
      let rest := stack.dropWhile (fun t => !(t = "("))
      shuntLoop ts (rest.drop 1) (out ++ popped.map QToken.op)
    else
      let popped := stack.takeWhile (fun t => geJS (precedenceOf t) (precedenceOf v))
      let rest := stack.dropWhile (fun t => geJS (precedenceOf t) (precedenceOf v))
      shuntLoop ts (v :: rest) (out ++ popped.map QToken.op)

/-- Postfix evaluation loop of evaluateBooleanQuery. The evaluation stack is
a JavaScript array: push appends at the end, pop removes the last element and
yields undefined when the array is empty. A term pushes its matchTerm result;
NOT or minus pops one value and pushes its negation (the negation of
undefined being true, modelled by defaulting the popped value to false);
any other operator pops two values, defaulting missing ones to false, and
pushes the conjunction for AND or plus, the disjunction for OR, and nothing
at all for any other operator symbol such as a drained left parenthesis. -/
def evalLoop (nc : String) : List QToken → List Bool → List Bool
  | [], st => st
  | QToken.term v :: ts, st => evalLoop nc ts (st ++ [matchTerm nc v])
  | QToken.op v :: ts, st =>
    if v = "NOT" || v = "-" then
      evalLoop nc ts (st.dropLast ++ [!(st.getLast?.getD false)])
    else
      let b := st.getLast?.getD false
      let st1 := st.dropLast
      let a := st1.getLast?.getD false
      let st2 := st1.dropLast
      if v = "AND" || v = "+" then evalLoop nc ts (st2 ++ [a && b])
      else if v = "OR" then evalLoop nc ts (st2 ++ [a || b])
      else evalLoop nc ts st2

/-- Compile a token stream and evaluate it against normalized content,
returning element 0 of the final evaluation stack, or false when the stack is
empty. With the JavaScript array orientation used here, element 0 is the
first-pushed (bottom) element. -/
def evalTokensQuery (content : String) (toks : List QToken) : Bool :=
  match evalLoop (normalizeText content) (shuntLoop toks [] []) [] with
  | [] => false
  | b :: _ => b

/-- Final evaluation stack of a query against a content string: tokenize,
convert to postfix by shunting-yard, evaluate. -/
def finalStack (content query : String) : List Bool :=
  evalLoop (normalizeText content) (shuntLoop (tokenize query.data) [] []) []

/-- Translation of evaluateBooleanQuery from src/components/Explorer.tsx
line 352 (identical at src/unnamed/part_001 line 408): an empty or
whitespace-only query is true for every content; otherwise the query is
tokenized, compiled to postfix and evaluated, and the result is element 0 of
the final evaluation stack, or false when the stack is empty. -/
def evaluateBooleanQuery (content query : String) : Bool :=
  if query.data.all jsWhitespace then true
  else evalTokensQuery content (tokenize query.data)

/-- Digit-run value accumulator shared by the numeric parsers. -/
def digitsToNat (l : List Char) : Nat := l.foldl (fun a c => a * 10 + (c.toNat - 48)) 0

/-- Model of parseInt with radix 10: skip leading whitespace, accept an
optional sign, then read a maximal digit run, ignoring everything after it;
none models NaN (no digits at all). -/
def parseIntJS (s : String) : Option Int :=
  match s.data.dropWhile jsWhitespace with
  | '-' :: rest =>
    let ds := rest.takeWhile Char.isDigit
    if ds.isEmpty then none else some (-(digitsToNat ds : Int))
  | '+' :: rest =>
    let ds := rest.takeWhile Char.isDigit
    if ds.isEmpty then none else some ((digitsToNat ds : Int))
  | cs =>
    let ds := cs.takeWhile Char.isDigit
    if ds.isEmpty then none else some ((digitsToNat ds : Int))

/-- Model of the Number conversion applied to duration components: the
trimmed empty string is 0; an optionally signed all-digit string is its
value; anything else is NaN (none). Fractional literals are outside the
duration format and are folded into the NaN case. -/
def jsNumber (s : String) : Option Int :=
  match jsTrimChars s.data with
  | [] => some 0
  | '-' :: rest =>
    if !rest.isEmpty && rest.all Char.isDigit then some (-(digitsToNat rest : Int)) else none
  | '+' :: rest =>
    if !rest.isEmpty && rest.all Char.isDigit then some ((digitsToNat rest : Int)) else none
  | cs =>
    if cs.all Char.isDigit then some ((digitsToNat cs : Int)) else none

/-- Translation of parseDurationToSeconds from src/components/Explorer.tsx
line 412: a missing or empty duration is 0 seconds; a string splitting on
colons into three parts is hours, minutes, seconds; two parts are minutes,
seconds; any other number of parts is 0. NaN components (none) propagate
through the arithmetic. -/
def parseDurationToSeconds (dur : Option String) : Option Int :=
  match dur with
  | none => some 0
  | some d =>
    if d = "" then some 0
    else
      match (splitOnChar ':' d.data).map jsNumber with
      | [some a, some b, some c] => some (a * 3600 + b * 60 + c)
      | [some a, some b] => some (a * 60 + b)
      | [_, _, _] => none
      | [_, _] => none
      | _ => some 0

/-- JavaScript strict less-than on possibly NaN numbers: comparisons against
NaN are false. -/
def ltJS : Option Int → Option Int → Bool
  | some a, some b => decide (a < b)
  | _, _ => false

/-- JavaScript strict greater-than on possibly NaN numbers: comparisons
against NaN are false. -/
def gtJS : Option Int → Option Int → Bool
  | some a, some b => decide (b < a)
  | _, _ => false

/-- Session kind: audio call or SMS. -/
inductive SessionType where
  | AUDIO
  | SMS
deriving DecidableEq

/-- Embedding of the ParsedSession record of src/types.ts, restricted to the
fields read by the search, filter and sort code. Optional fields are Option. -/
structure Session where
  sessionId : String
  target : String
  date : String
  startTime : Option String
  endTime : Option String
  duration : Option String
  type : SessionType
  content : String
  sourceNumber : Option String
  sourceName : Option String
  destinationNumber : Option String
  destinationName : Option String
  sourceFileName : String
deriving DecidableEq

/-- Embedding of the committed Active Filter Set of src/unnamed/part_001:
the activeFilters object captured by filteredSessions. -/
structure Filters where
  session : String
  content : String
  dateStart : String
  dateEnd : String
  timeStart : String
  timeEnd : String
  sourceNumbers : List String
  destNumbers : List String
  sourceSpeakers : List String
  destSpeakers : List String
  minDuration : String
  maxDuration : String
deriving DecidableEq

/-- Embedding of the SavedTag record of src/types.ts. -/
structure SavedTag where
  id : String
  name : String
  timestamp : Nat
  sessionIds : List String
  filterDescription : String
deriving DecidableEq

/-- Embedding of the AliasMap record of src/types.ts as an association list
with the first matching key winning, modelled after object key lookup. -/
abbrev AliasMap := List (String × String)

/-- Translation of the resolve helper of src/unnamed/part_001 line 584: a
missing or empty value resolves to undefined; otherwise the alias map entry
is returned when present and truthy, else the raw value itself. -/
def resolve (amap : AliasMap) (val : Option String) : Option String :=
  match val with
  | none => none
  | some v =>
    if v = "" then none
    else
      match amap.lookup v with
      | some a => if a = "" then some v else some a
      | none => some v

/-- Translation of isTimeInRange from src/unnamed/part_001 line 665: a falsy
time is never in range; otherwise the first five characters of the time are
compared lexicographically against the bounds, wrapping across midnight when
the start bound exceeds the end bound. -/
def isTimeInRange (time : Option String) (tstart tend : String) : Bool :=
  match time with
  | none => false
  | some tm =>
    if tm = "" then false
    else
      let t := String.mk (tm.data.take 5)
      if decide (tstart ≠ "") && decide (tend ≠ "") then
        if jsStrLeB tstart tend then jsStrGeB t tstart && jsStrLeB t tend
        else jsStrGeB t tstart || jsStrLeB t tend
      else if decide (tstart ≠ "") then jsStrGeB t tstart
      else if decide (tend ≠ "") then jsStrLeB t tend
      else true

/-- Days from the civil epoch 1970-01-01 for a year, month (1 to 12) and day,
by the standard era decomposition; the month is assumed in range here, the
JavaScript Date constructor normalization being applied by the caller. -/
def daysFromCivil (y m d : Int) : Int :=
  let y1 := if m ≤ 2 then y - 1 else y
  let era := Int.fdiv y1 400
  let yoe := y1 - era * 400
  let mp := if 2 < m then m - 3 else m + 9
  let doy := Int.fdiv (153 * mp + 2) 5 + (d - 1)
  let doe := yoe * 365 + Int.fdiv yoe 4 - Int.fdiv yoe 100 + doy
  era * 146097 + doe - 719468

/-- Milliseconds since the epoch for a civil date, without constructor-style
normalization. -/
def msOfCivil (y m d : Int) : Int := daysFromCivil y m d * 86400000

/-- Model of the epoch milliseconds of new Date(y, monthIndex, day): years 0
to 99 map to 1900 to 1999, and out-of-range month indices roll the year over,
as the Date constructor normalizes its arguments. The timezone offset is
modelled as zero; only differences of these values are ever consumed. -/
def dateMsFromYMD (y mIdx d : Int) : Int :=
  let y1 := if 0 ≤ y ∧ y ≤ 99 then y + 1900 else y
  let tm := y1 * 12 + mIdx
  let y2 := Int.fdiv tm 12
  let m2 := Int.emod tm 12 + 1
  msOfCivil y2 m2 d

/-- Translation of parseDate of src/unnamed/part_001 line 660 composed with
getTime: a day.month.year string with exactly three dot-separated parts is
parsed with parseInt per part and fed to the Date constructor; any other
shape is null, and NaN parts give an invalid date. Null and invalid collapse
to none here, which is sound for every consumer in the pipeline and the sort
because both make every comparison false and both are mapped to the same
fallback. -/
def parseDateMs (dateStr : String) : Option Int :=
  match splitOnChar '.' dateStr.data with
  | [p0, p1, p2] =>
    match parseIntJS p0, parseIntJS p1, parseIntJS p2 with
    | some d, some m, some y => some (dateMsFromYMD y (m - 1) d)
    | _, _, _ => none
  | _ => none

/-- Model of the epoch milliseconds of new Date applied to the filter bound
strings of the date inputs (ISO year-month-day): three dash-separated
numeric parts; anything else is invalid (none). -/
def parseISOms (s : String) : Option Int :=
  match splitOnChar '-' s.data with
  | [ys, ms, ds] =>
    match parseIntJS ys, parseIntJS ms, parseIntJS ds with
    | some y, some m, some d => some (dateMsFromYMD y (m - 1) d)
    | _, _, _ => none
  | _ => none

/-- Character class of the first group head of the speaker regular
expression: uppercase A to Z or U+00C0 to U+00DA. -/
def isClassA (c : Char) : Bool :=
  (0x41 ≤ c.toNat ∧ c.toNat ≤ 0x5A) ∨ (0xC0 ≤ c.toNat ∧ c.toNat ≤ 0xDA)

/-- Character class of the repeated part of the speaker regular expression:
lowercase a to z, U+00E0 to U+00FA, digits, underscore, hyphen, whitespace. -/
def isClassB (c : Char) : Bool :=
  (0x61 ≤ c.toNat ∧ c.toNat ≤ 0x7A) ∨ (0xE0 ≤ c.toNat ∧ c.toNat ≤ 0xFA) ∨
  (0x30 ≤ c.toNat ∧ c.toNat ≤ 0x39) ∨ c = '_' ∨ c = '-' ∨ jsWhitespace c

/-- Greedy backtracking of the bounded repetition in the speaker regular
expression: try the repetition length j down from 30 to 1, succeeding at the
largest j at which the first j characters after the head are all in the
class and are followed by a colon. -/
def speakerTryJ (c0 : Char) (rest : List Char) : Nat → Option String
  | 0 => none
  | j + 1 =>
    let pre := rest.take (j + 1)
    if decide (pre.length = j + 1) && pre.all isClassB &&
        (match rest.drop (j + 1) with
         | d :: _ => d = ':'
         | [] => false) then
      some (String.mk (c0 :: pre))
    else speakerTryJ c0 rest j

/-- Model of matching the anchored speaker regular expression of
filteredSessions against a line, returning group 1 on success: one class-A
character, one to thirty class-B characters, then a colon. -/
def speakerExtract (line : List Char) : Option String :=
  match line with
  | [] => none
  | c0 :: rest => if isClassA c0 then speakerTryJ c0 rest 30 else none

/-- First line of a content string: the piece before the first line feed, the
empty string for empty content. -/
def firstLineOf (s : String) : String := (splitOnChar (Char.ofNat 0x0A) s.data).headD ""

/-- Duration stage of filteredSessions (src/unnamed/part_001 line 693): when
either duration bound is a non-empty string, a non-AUDIO session is rejected
outright; otherwise the parsed duration must be at least the parsed minimum
and at most the parsed maximum, each bound applying only when non-empty and
parsing to a number. -/
def passesDuration (f : Filters) (s : Session) : Bool :=
  if decide (f.minDuration ≠ "") || decide (f.maxDuration ≠ "") then
    if decide (s.type ≠ SessionType.AUDIO) then false
    else
      let durationSec := parseDurationToSeconds s.duration
      if decide (f.minDuration ≠ "") && ltJS durationSec (parseIntJS f.minDuration) then false
      else if decide (f.maxDuration ≠ "") && gtJS durationSec (parseIntJS f.maxDuration) then false
      else true
  else true

/-- Source number stage of filteredSessions: with a non-empty filter list the
resolved source number must exist and be listed. -/
def passesSourceNumbers (amap : AliasMap) (f : Filters) (s : Session) : Bool :=
  if 0 < f.sourceNumbers.length then
    match resolve amap s.sourceNumber with
    | none => false
    | some n => f.sourceNumbers.contains n
  else true

/-- Destination number stage of filteredSessions: with a non-empty filter
list the resolved destination number must exist and be listed. -/
def passesDestNumbers (amap : AliasMap) (f : Filters) (s : Session) : Bool :=
  if 0 < f.destNumbers.length then
    match resolve amap s.destinationNumber with
    | none => false
    | some n => f.destNumbers.contains n
  else true

/-- Source speaker stage of filteredSessions: the resolved source name or the
resolved source number must be listed; failing both, the speaker extracted by
the regular expression from the first content line, trimmed and resolved,
is tried. -/
def passesSourceSpeakers (amap : AliasMap) (f : Filters) (s : Session) : Bool :=
  if 0 < f.sourceSpeakers.length then
    let matchName :=
      match resolve amap s.sourceName with
      | some n => f.sourceSpeakers.contains n
      | none => false
    let matchNum :=
      match resolve amap s.sourceNumber with
      | some n => f.sourceSpeakers.contains n
      | none => false
    let contentMatch :=
      if !matchName && !matchNum then
        match speakerExtract (firstLineOf s.content).data with
        | some raw =>
          let extracted := jsTrim raw
          f.sourceSpeakers.contains ((resolve amap (some extracted)).getD extracted)
        | none => false
      else false
    matchName || matchNum || contentMatch
  else true

/-- Destination speaker stage of filteredSessions: the resolved destination
name or the resolved destination number must be listed. -/
def passesDestSpeakers (amap : AliasMap) (f : Filters) (s : Session) : Bool :=
  if 0 < f.destSpeakers.length then
    let matchName :=
      match resolve amap s.destinationName with
      | some n => f.destSpeakers.contains n
      | none => false
    let matchNum :=
      match resolve amap s.destinationNumber with
      | some n => f.destSpeakers.contains n
      | none => false
    matchName || matchNum
  else true

/-- Session id stage of filteredSessions: the comma-separated filter terms
are trimmed and lowercased, and at least one must occur inside the lowercased
session id. -/
def passesSessionId (f : Filters) (s : Session) : Bool :=
  if decide (f.session ≠ "") then
    (splitOnChar ',' f.session.data).any
      (fun t => containsSub (jsToLowerStr (jsTrim t)).data (jsToLowerStr s.sessionId).data)
  else true

/-- Content stage of filteredSessions: a non-empty boolean content query must
evaluate to true on the session content. -/
def passesContent (f : Filters) (s : Session) : Bool :=
  if decide (f.content ≠ "") then evaluateBooleanQuery s.content f.content else true

/-- Date stage of filteredSessions: when a date bound is set and the session
date parses, the parsed date must not lie strictly before the start bound nor
strictly after the end bound; sessions with unparseable dates pass. -/
def passesDate (f : Filters) (s : Session) : Bool :=
  if decide (f.dateStart ≠ "") || decide (f.dateEnd ≠ "") then
    match parseDateMs s.date with
    | none => true
    | some d =>
      if (decide (f.dateStart ≠ "") && ltJS (some d) (parseISOms f.dateStart)) ||
         (decide (f.dateEnd ≠ "") && gtJS (some d) (parseISOms f.dateEnd)) then false
      else true
  else true

/-- Truthiness of the optional start time, as tested by the time stage. -/
def startTimeTruthy (s : Session) : Bool :=
  match s.startTime with
  | none => false
  | some t => decide (t ≠ "")

/-- Time stage of filteredSessions: applies only when a time bound is set and
the session has a truthy start time; then isTimeInRange must hold. -/
def passesTime (f : Filters) (s : Session) : Bool :=
  if (decide (f.timeStart ≠ "") || decide (f.timeEnd ≠ "")) && startTimeTruthy s &&
      !(isTimeInRange s.startTime f.timeStart f.timeEnd) then false
  else true

/-- Per-session predicate of filteredSessions from src/unnamed/part_001
line 692: the conjunction, in source order, of the duration, directional
number, directional speaker, session id, content query, date range and time
range stages; the first failing stage rejects the session. -/
def sessionPasses (amap : AliasMap) (f : Filters) (s : Session) : Bool :=
  passesDuration f s && passesSourceNumbers amap f s && passesDestNumbers amap f s &&
  passesSourceSpeakers amap f s && passesDestSpeakers amap f s && passesSessionId f s &&
  passesContent f s && passesDate f s && passesTime f s

/-- Translation of filteredSessions from src/unnamed/part_001 line 674: when
tags are active, restrict to the union of their session id sets; when the
view-only-selected flag is set, restrict further to the manual selection;
then keep the sessions accepted by sessionPasses. -/
def filteredSessions (sessions : List Session) (f : Filters) (activeTagIds : List String)
    (savedTags : List SavedTag) (viewOnlySelected : Bool) (manualSelection : List String)
    (amap : AliasMap) : List Session :=
  let baseSet :=
    if 0 < activeTagIds.length then
      let allowedIds := (savedTags.filter (fun t => activeTagIds.contains t.id)).flatMap
        (fun t => t.sessionIds)
      sessions.filter (fun s => allowedIds.contains s.sessionId)
    else sessions
  let base2 :=
    if viewOnlySelected then baseSet.filter (fun s => manualSelection.contains s.sessionId)
    else baseSet
  base2.filter (fun s => sessionPasses amap f s)

/-- Sort keys of the sort stage. -/
inductive SortOption where
  | date_desc
  | date_asc
  | duration_desc
  | source_num
  | dest_num
  | source_name
  | dest_name
deriving DecidableEq

/-- Model of localeCompare as ordinal string comparison returning the sign. -/
def cmpStr (a b : String) : Int :=
  if lexLtChars a.data b.data then -1
  else if lexLtChars b.data a.data then 1
  else 0

/-- Epoch milliseconds of the time-of-day template suffix: two or three
in-range colon-separated numeric parts. -/
def timeMsOf (t : String) : Option Int :=
  match splitOnChar ':' t.data with
  | [hh, mm] =>
    match parseIntJS hh, parseIntJS mm with
    | some h, some m =>
      if 0 ≤ h ∧ h < 24 ∧ 0 ≤ m ∧ m < 60 then some (h * 3600000 + m * 60000) else none
    | _, _ => none
  | [hh, mm, ss] =>
    match parseIntJS hh, parseIntJS mm, parseIntJS ss with
    | some h, some m, some sec =>
      if 0 ≤ h ∧ h < 24 ∧ 0 ≤ m ∧ m < 60 ∧ 0 ≤ sec ∧ sec < 60 then
        some (h * 3600000 + m * 60000 + sec * 1000)
      else none
    | _, _, _ => none
  | _ => none

/-- Model of the date key built by the sort comparator of
src/components/Explorer.tsx line 1920: the day.month.year string is split on
dots and reassembled into the template year-month-day followed by a start
time (the empty or missing start time defaulting to midnight), and the
template is parsed as a date string; none models the invalid date, which
makes the comparator difference evaluate to 0. The start time argument is
always the first comparand of the comparator, replicating the source, which
closes over the first comparand inside its local date parser. -/
def explorerDateKey (dateStr : String) (aStartTime : Option String) : Option Int :=
  match splitOnChar '.' dateStr.data with
  | [p0, p1, p2] =>
    let tstr :=
      match aStartTime with
      | none => "00:00:00"
      | some st => if st = "" then "00:00:00" else st
    match parseIntJS p2, parseIntJS p1, parseIntJS p0, timeMsOf tstr with
    | some y, some m, some d, some tms =>
      if 1 ≤ m ∧ m ≤ 12 ∧ 1 ≤ d ∧ d ≤ 31 then some (msOfCivil y m d + tms) else none
    | _, _, _, _ => none
  | _ => none

/-- Difference of two possibly invalid date keys, as consumed by the sort:
a NaN difference is treated as 0 by the sort machinery. -/
def subJS : Option Int → Option Int → Int
  | some a, some b => a - b
  | _, _ => 0

/-- Translation of the sort comparator of sortedSessions from
src/components/Explorer.tsx line 1916. For the date keys both comparands are
keyed with the start time of the first comparand, exactly as in the source,
whose local date parser interpolates the start time of its enclosing first
argument. Duration sorts compare the raw duration strings; the remaining
sorts compare resolved fields with empty-string fallback. -/
def explorerSortCompare (opt : SortOption) (amap : AliasMap) (a b : Session) : Int :=
  match opt with
  | SortOption.date_desc =>
    subJS (explorerDateKey b.date a.startTime) (explorerDateKey a.date a.startTime)
  | SortOption.date_asc =>
    subJS (explorerDateKey a.date a.startTime) (explorerDateKey b.date a.startTime)
  | SortOption.duration_desc => cmpStr (b.duration.getD "") (a.duration.getD "")
  | SortOption.source_num =>
    cmpStr ((resolve amap a.sourceNumber).getD "") ((resolve amap b.sourceNumber).getD "")
  | SortOption.dest_num =>
    cmpStr ((resolve amap a.destinationNumber).getD "") ((resolve amap b.destinationNumber).getD "")
  | SortOption.source_name =>
    cmpStr ((resolve amap a.sourceName).getD "") ((resolve amap b.sourceName).getD "")
  | SortOption.dest_name =>
    cmpStr ((resolve amap a.destinationName).getD "") ((resolve amap b.destinationName).getD "")

/-- Stable insertion of one element into a sorted list under a JavaScript
comparator: the element goes before the first list element it strictly
precedes, hence after every element it compares equal to. -/
def insertCmp (cmp : Session → Session → Int) (x : Session) : List Session → List Session
  | [] => [x]
  | y :: ys => if cmp x y < 0 then x :: y :: ys else y :: insertCmp cmp x ys

/-- Model of the stable Array.prototype.sort with a comparator, by stable
insertion from the left. -/
def jsSortBy (cmp : Session → Session → Int) (l : List Session) : List Session :=
  l.foldl (fun acc x => insertCmp cmp x acc) []

/-- Translation of sortedSessions from src/components/Explorer.tsx line 1915:
a stable sort of the filtered list under the selected comparator. -/
def sortedSessionsExplorer (l : List Session) (opt : SortOption) (amap : AliasMap) :
    List Session :=
  jsSortBy (explorerSortCompare opt amap) l

/-- Filter set with every field inactive. -/
def emptyFilters : Filters :=
  { session := "", content := "", dateStart := "", dateEnd := "", timeStart := "",
    timeEnd := "", sourceNumbers := [], destNumbers := [], sourceSpeakers := [],
    destSpeakers := [], minDuration := "", maxDuration := "" }

/-- Filter set whose only potentially active field is the maximum duration. -/
def maxOnlyFilters (mx : String) : Filters := { emptyFilters with maxDuration := mx }

/-- Filter set with a minimum duration of five seconds and nothing else. -/
def minFiveFilters : Filters := { emptyFilters with minDuration := "5" }

/-- Concrete SMS session used as a witness input. -/
def smsSample : Session :=
  { sessionId := "S2", target := "912000000", date := "01.02.2021",
    startTime := some "10:00:00", endTime := none, duration := none,
    type := SessionType.SMS, content := "ola", sourceNumber := some "911111111",
    sourceName := none, destinationNumber := some "9100", destinationName := none,
    sourceFileName := "alvo.pdf" }

/-- Concrete AUDIO session without a duration field, used for the duration
default claims. -/
def audioNoDurSample : Session :=
  { sessionId := "S1", target := "912000000", date := "01.02.2021",
    startTime := some "10:00:00", endTime := none, duration := none,
    type := SessionType.AUDIO, content := "ola", sourceNumber := some "911111111",
    sourceName := none, destinationNumber := some "9100", destinationName := none,
    sourceFileName := "alvo.pdf" }

/-- First of two equal-date sessions for the sort tie-break analysis; it
starts at 10:00:00. -/
def tieLate : Session :=
  { sessionId := "A", target := "t", date := "02.03.2021",
    startTime := some "10:00:00", endTime := none, duration := some "00:01:00",
    type := SessionType.AUDIO, content := "x", sourceNumber := none,
    sourceName := none, destinationNumber := none, destinationName := none,
    sourceFileName := "f" }

/-- Second of two equal-date sessions for the sort tie-break analysis; it
starts at 05:00:00, earlier than tieLate. -/
def tieEarly : Session :=
  { sessionId := "B", target := "t", date := "02.03.2021",
    startTime := some "05:00:00", endTime := none, duration := some "00:01:00",
    type := SessionType.AUDIO, content := "x", sourceNumber := none,
    sourceName := none, destinationNumber := none, destinationName := none,
    sourceFileName := "f" }

/-- Association list lookup misses every key the probe differs from. -/
theorem lookup_none_of_ne {β : Type} : ∀ (l : List (Char × β)) (c : Char),
    (∀ p ∈ l, ¬(c = p.1)) → l.lookup c = none
  | [], _, _ => rfl
  | (k, v) :: t, c, h => by
    have hcp : ¬(c = k) := h (k, v) (List.mem_cons_self _ t)
    have hne : (c == k) = false := by simp [hcp]
    simp only [List.lookup, hne]
    exact lookup_none_of_ne t c (fun q hq => h q (List.mem_cons_of_mem _ hq))

/-- Every key of the decomposition table lies in the Latin-1 letter range. -/
theorem nfdTable_keys_range : ∀ p ∈ nfdTable, 0xC0 ≤ p.1.toNat ∧ p.1.toNat ≤ 0xFF := by decide

/-- Characters outside the Latin-1 letter range decompose to themselves. -/
theorem jsNFDChar_out (c : Char) (h : c.toNat < 0xC0 ∨ 0xFF < c.toNat) : jsNFDChar c = [c] := by
  have hnone : nfdTable.lookup c = none := by
    apply lookup_none_of_ne
    intro p hp hc
    have hr := nfdTable_keys_range p hp
    rw [hc] at h
    omega
  simp [jsNFDChar, hnone]

/-- Code points at or above U+0100 are fixed by the lowercase model. -/
theorem jsToLower_big (c : Char) (h : 0x100 ≤ c.toNat) : jsToLower c = c := by
  unfold jsToLower
  rw [if_neg (by omega), if_neg (by omega)]

/-- On the first 256 code points, every character produced by lowering and
decomposing is itself fixed by lowering and decomposition. -/
theorem normChar_inert_small :
    ∀ n : Nat, n < 0x100 → ∀ d ∈ jsNFDChar (jsToLower (Char.ofNat n)),
      jsToLower d = d ∧ jsNFDChar d = [d] := by decide

/-- Every character produced by lowering and decomposing any character is
itself fixed by lowering and by decomposition. -/
theorem normChar_inert (c : Char) :
    ∀ d ∈ jsNFDChar (jsToLower c), jsToLower d = d ∧ jsNFDChar d = [d] := by
  by_cases h : c.toNat < 0x100
  · have := normChar_inert_small c.toNat h
    rwa [Char.ofNat_toNat] at this
  · push_neg at h
    rw [jsToLower_big c h, jsNFDChar_out c (Or.inr (by omega))]
    intro d hd
    have hd' : d = c := by simpa using hd
    subst hd'
    exact ⟨jsToLower_big d h, jsNFDChar_out d (Or.inr (by omega))⟩

/-- A flat map whose function is the singleton on every element of the list
is the identity on that list. -/
theorem flatMap_id_of {α : Type} (f : α → List α) (l : List α)
    (h : ∀ d ∈ l, f d = [d]) : l.flatMap f = l := by
  induction l with
  | nil => rfl
  | cons a t ih =>
    rw [List.flatMap_cons, h a (List.mem_cons_self a t),
      ih (fun d hd => h d (List.mem_cons_of_mem a hd))]
    rfl

/-- C7: normalizeText is idempotent on every string: lowercasing, NFD
decomposition and stripping of the U+0300 to U+036F block, applied twice,
agree with one application. -/
theorem c7_normalize_idempotent (s : String) :
    normalizeText (normalizeText s) = normalizeText s := by
  unfold normalizeText
  set L := ((s.data.map jsToLower).flatMap jsNFDChar).filter (fun c => !(isCombining c)) with hL
  have hin : ∀ d ∈ L, jsToLower d = d ∧ jsNFDChar d = [d] := by
    intro d hd
    rw [hL] at hd
    have hd1 := (List.mem_filter.mp hd).1
    obtain ⟨x, hx, hdx⟩ := List.mem_flatMap.mp hd1
    obtain ⟨c, _, rfl⟩ := List.mem_map.mp hx
    exact normChar_inert c d hdx
  have h1 : L.map jsToLower = L := by
    have hcg : L.map jsToLower = L.map id := List.map_congr_left (fun d hd => (hin d hd).1)
    rw [hcg, List.map_id]
  have h2 : L.flatMap jsNFDChar = L := flatMap_id_of _ _ (fun d hd => (hin d hd).2)
  have h3 : L.filter (fun c => !(isCombining c)) = L := by
    rw [hL, List.filter_filter]
    congr 1
    funext a
    exact Bool.and_self _
  show String.mk ((((String.mk L).data.map jsToLower).flatMap jsNFDChar).filter _) = String.mk L
  rw [show (String.mk L).data = L from rfl, h1, h2, h3]

/-- C1 counterexample: on content "b" the query "a b" leaves the two values
false (for term a, pushed first) and true (for term b, pushed last) on the
evaluation stack, and the evaluator returns false, the first-pushed bottom
value, not the most recently pushed top value true claimed by C1. -/
theorem c1_counterexample :
    evaluateBooleanQuery "b" "a b" = false ∧
    finalStack "b" "a b" = [false, true] ∧
    (finalStack "b" "a b").getLast? = some true := by decide

/-- C1 amended: for every content and every query that is not whitespace-only,
the result of the evaluator is the bottom (first-pushed, index 0) element of
the final evaluation stack, defaulting to false on the empty stack; a
whitespace-only query returns true without evaluation. -/
theorem c1_result_is_stack_bottom (content query : String)
    (h : query.data.all jsWhitespace = false) :
    evaluateBooleanQuery content query = (finalStack content query).headD false := by
  unfold evaluateBooleanQuery evalTokensQuery finalStack
  rw [h]
  simp only [Bool.false_eq_true, if_false]
  cases evalLoop (normalizeText content) (shuntLoop (tokenize query.data) [] []) [] with
  | nil => rfl
  | cons b t => rfl

/-- C1 witness: the amended statement at the concrete inputs of the
counterexample. -/
theorem c1_witness :
    ("a b".data.all jsWhitespace = false) ∧
    evaluateBooleanQuery "b" "a b" = (finalStack "b" "a b").headD false :=
  ⟨by decide, c1_result_is_stack_bottom "b" "a b" (by decide)⟩

/-- C4: for every content and all three term tokens, the unparenthesized
token stream A AND B OR NOT C compiles and evaluates exactly like the
parenthesized stream (A AND B) OR (NOT C): the shunting-yard precedence
NOT 3, AND 2, OR 1, parenthesis 0 yields the same postfix form for both. -/
theorem c4_precedence_equiv (content : String) (a b c : String) :
    evalTokensQuery content
      [QToken.term a, QToken.op "AND", QToken.term b, QToken.op "OR",
       QToken.op "NOT", QToken.term c] =
    evalTokensQuery content
      [QToken.op "(", QToken.term a, QToken.op "AND", QToken.term b, QToken.op ")",
       QToken.op "OR", QToken.op "(", QToken.op "NOT", QToken.term c, QToken.op ")"] := rfl

/-- C9: a query that is not whitespace-only but yields no tokens at all
evaluates to false for every content, while the empty query evaluates to
true for every content. -/
theorem c9_tokenless_query_false (content query : String)
    (h1 : query.data.all jsWhitespace = false)
    (h2 : tokenize query.data = []) :
    evaluateBooleanQuery content query = false ∧ evaluateBooleanQuery content "" = true := by
  refine ⟨?_, rfl⟩
  unfold evaluateBooleanQuery evalTokensQuery
  rw [h1, h2]
  simp [shuntLoop, evalLoop]

/-- C9 witness: the two-character query consisting of two double quotes is
not whitespace, produces no tokens, and evaluates to false, while the empty
query evaluates to true. -/
theorem c9_witness :
    ("\"\"".data.all jsWhitespace = false) ∧ (tokenize "\"\"".data = []) ∧
    (evaluateBooleanQuery "qualquer" "\"\"" = false ∧
     evaluateBooleanQuery "qualquer" "" = true) :=
  ⟨by decide, by decide, c9_tokenless_query_false "qualquer" "\"\"" (by decide) (by decide)⟩

/-- C8: the core search functions of the embedding are total Lean functions,
so every input, including the degenerate ones of the error handling design,
maps to a defined value: the empty query accepts, a parenthesis-only query
evaluates to false rather than raising, an unterminated quote degrades to the
bare word, missing and empty durations parse to 0 seconds, the empty filter
set accepts every session, and evaluator and filter predicate return a
boolean on every input whatsoever. -/
theorem c8_total_defined_outcomes (content query : String) (amap : AliasMap)
    (f : Filters) (s : Session) :
    evaluateBooleanQuery content "" = true ∧
    evaluateBooleanQuery content "(((" = false ∧
    evaluateBooleanQuery content "\"abc" = evaluateBooleanQuery content "abc" ∧
    parseDurationToSeconds none = some 0 ∧
    parseDurationToSeconds (some "") = some 0 ∧
    sessionPasses amap emptyFilters s = true ∧
    (evaluateBooleanQuery content query = true ∨ evaluateBooleanQuery content query = false) ∧
    (sessionPasses amap f s = true ∨ sessionPasses amap f s = false) := by
  refine ⟨rfl, rfl, rfl, rfl, rfl, ?_, ?_, ?_⟩
  · simp [sessionPasses, passesDuration, passesSourceNumbers, passesDestNumbers,
      passesSourceSpeakers, passesDestSpeakers, passesSessionId, passesContent,
      passesDate, passesTime, emptyFilters]
  · exact Bool.eq_false_or_eq_true _
  · exact Bool.eq_false_or_eq_true _


/-- The fuzzy-eligibility guard of matchTerm is true exactly when the
normalized term is longer than 3 characters and has no space character. -/
theorem fuzzyGuard_eq_true (t : String)
    (hlen : 3 < t.length) (hsp : t.data.contains ' ' = false) :
    (decide (3 < t.length) && !(t.data.contains ' ')) = true := by
  rw [hsp, decide_eq_true hlen]
  rfl

/-- The fuzzy-eligibility guard of matchTerm is false whenever the normalized
term is short or has a space character. -/
theorem fuzzyGuard_eq_false (t : String)
    (h : ¬(3 < t.length ∧ t.data.contains ' ' = false)) :
    (decide (3 < t.length) && !(t.data.contains ' ')) = false := by
  rcases Bool.eq_false_or_eq_true (decide (3 < t.length)) with hl | hl
  · rcases Bool.eq_false_or_eq_true (t.data.contains ' ') with hs | hs
    · rw [hl, hs]
      rfl
    · exact absurd ⟨of_decide_eq_true hl, hs⟩ h
  · rw [hl]
    rfl

/-- C2 counterexample: the quoted single-word query for abcd matches the
content abcx even though the content does not contain the phrase abcd: the
quoted phrase goes through the same fuzzy matchTerm as a bare word (edit
distance 1 at threshold 1), contradicting the claim that quoted phrases are
never fuzzy-matched. -/
theorem c2_counterexample :
    evaluateBooleanQuery "abcx" "\"abcd\"" = true ∧
    containsSub (normalizeText "abcd").data (normalizeText "abcx").data = false := by decide

/-- C2 amended: a term (in particular a quoted phrase) whose normalized form
is at most 3 characters long or contains a space character is matched purely
by exact substring containment of the normalized term in the normalized
content; only terms longer than 3 characters without a space are eligible
for fuzzy matching. -/
theorem c2_exact_when_space_or_short (content phrase : String)
    (h : ¬(3 < (normalizeText phrase).length ∧
          (normalizeText phrase).data.contains ' ' = false)) :
    matchTerm (normalizeText content) phrase =
      containsSub (normalizeText phrase).data (normalizeText content).data := by
  have hg := fuzzyGuard_eq_false (normalizeText phrase) h
  simp only [matchTerm]
  cases hc : containsSub (normalizeText phrase).data (normalizeText content).data with
  | true => simp [hc]
  | false =>
    rw [hg]
    simp

/-- C2 witness: the amended statement at the space-containing phrase ab cd
against a content that contains it. -/
theorem c2_witness :
    (¬(3 < (normalizeText "ab cd").length ∧
       (normalizeText "ab cd").data.contains ' ' = false)) ∧
    matchTerm (normalizeText "zab cdz") "ab cd" =
      containsSub (normalizeText "ab cd").data (normalizeText "zab cdz").data :=
  ⟨by decide, c2_exact_when_space_or_short "zab cdz" "ab cd" (by decide)⟩

/-- C3 counterexample: the term containing a tab (internal whitespace that is
not a space character) is fuzzy-matched by the code: on content abxcd, whose
single word is at distance 1, matchTerm answers true although the claim
requires false for any term with internal whitespace. -/
theorem c3_counterexample :
    matchTerm "abxcd" "ab\tcd" = true ∧
    containsSub (normalizeText "ab\tcd").data ("abxcd" : String).data = false ∧
    ("ab\tcd" : String).data.any jsWhitespace = true := by decide

/-- C3 amended: for a normalized content not containing the normalized term,
matchTerm answers true exactly when the normalized term is longer than 3
characters, contains no space character (U+0020; other whitespace such as a
tab does not disable fuzzy matching), and some word of the content split at
non-word characters is within the length window and Levenshtein threshold. -/
theorem c3_fuzzy_iff (content term : String)
    (h : containsSub (normalizeText term).data content.data = false) :
    matchTerm content term = true ↔
      (3 < (normalizeText term).length ∧
       (normalizeText term).data.contains ' ' = false ∧
       ∃ w ∈ splitNW content.data,
         ((w.length : Int) - ((normalizeText term).length : Int)).natAbs ≤
           fuzzThreshold (normalizeText term) ∧
         getLevenshteinDistance w (normalizeText term) ≤ fuzzThreshold (normalizeText term)) := by
  simp only [matchTerm, h, Bool.false_eq_true, if_false]
  by_cases hgp : 3 < (normalizeText term).length ∧
      (normalizeText term).data.contains ' ' = false
  · rw [fuzzyGuard_eq_true _ hgp.1 hgp.2, if_pos rfl, List.any_eq_true]
    constructor
    · rintro ⟨w, hw, hfw⟩
      refine ⟨hgp.1, hgp.2, w, hw, ?_⟩
      by_cases habs : fuzzThreshold (normalizeText term) <
          ((w.length : Int) - ((normalizeText term).length : Int)).natAbs
      · rw [if_pos habs] at hfw
        exact absurd hfw (by simp)
      · rw [if_neg habs] at hfw
        exact ⟨Nat.le_of_not_lt habs, of_decide_eq_true hfw⟩
    · rintro ⟨-, -, w, hw, habs, hlev⟩
      refine ⟨w, hw, ?_⟩
      rw [if_neg (Nat.not_lt.mpr habs)]
      exact decide_eq_true hlev
  · rw [fuzzyGuard_eq_false _ hgp]
    simp only [Bool.false_eq_true, if_false]
    constructor
    · intro hfalse
      exact absurd hfalse (by simp)
    · rintro ⟨hlen, hsp, -⟩
      exact absurd ⟨hlen, hsp⟩ hgp

/-- C3 witness: the amended characterization at the spec example, the term
lisboa against the non-containing content lisbao (distance 2, threshold 2,
hence a fuzzy match). -/
theorem c3_witness :
    (containsSub (normalizeText "lisboa").data ("lisbao" : String).data = false) ∧
    (matchTerm "lisbao" "lisboa" = true ↔
      (3 < (normalizeText "lisboa").length ∧
       (normalizeText "lisboa").data.contains ' ' = false ∧
       ∃ w ∈ splitNW ("lisbao" : String).data,
         ((w.length : Int) - ((normalizeText "lisboa").length : Int)).natAbs ≤
           fuzzThreshold (normalizeText "lisboa") ∧
         getLevenshteinDistance w (normalizeText "lisboa") ≤
           fuzzThreshold (normalizeText "lisboa"))) :=
  ⟨by decide, c3_fuzzy_iff "lisbao" "lisboa" (by decide)⟩

/-- With either duration bound non-empty, the duration stage rejects every
session that is not of type AUDIO. -/
theorem passesDuration_false_of_sms (f : Filters) (s : Session)
    (hT : s.type = SessionType.SMS)
    (hB : f.minDuration ≠ "" ∨ f.maxDuration ≠ "") :
    passesDuration f s = false := by
  have hg : (decide (f.minDuration ≠ "") || decide (f.maxDuration ≠ "")) = true := by
    rcases hB with h | h <;> simp [h]
  have hty : decide (s.type ≠ SessionType.AUDIO) = true := by
    rw [hT]
    rfl
  unfold passesDuration
  rw [hg, hty]
  simp

/-- C5: a session of type SMS is absent from the output of the filter
pipeline whenever the committed filter set has a non-empty minimum or
maximum duration bound, whatever the bound value, the other filter fields,
the session fields, the tag scope and the manual selection. -/
theorem c5_sms_rejected_by_duration_bounds (sessions : List Session) (f : Filters)
    (tags : List String) (saved : List SavedTag) (view : Bool) (sel : List String)
    (amap : AliasMap) (s : Session)
    (hT : s.type = SessionType.SMS)
    (hB : f.minDuration ≠ "" ∨ f.maxDuration ≠ "") :
    s ∉ filteredSessions sessions f tags saved view sel amap := by
  intro hmem
  have hmem2 : s ∈ (if view then
      (if 0 < tags.length then
        sessions.filter (fun t => (((saved.filter (fun tg => tags.contains tg.id)).flatMap
          (fun tg => tg.sessionIds)).contains t.sessionId)) else sessions).filter
        (fun t => sel.contains t.sessionId)
      else (if 0 < tags.length then
        sessions.filter (fun t => (((saved.filter (fun tg => tags.contains tg.id)).flatMap
          (fun tg => tg.sessionIds)).contains t.sessionId)) else sessions)).filter
      (fun t => sessionPasses amap f t) := hmem
  have hp : sessionPasses amap f s = true := (List.mem_filter.mp hmem2).2
  have hd : passesDuration f s = false := passesDuration_false_of_sms f s hT hB
  rw [sessionPasses, hd] at hp
  exact absurd hp (by simp)

/-- C5 witness: the concrete SMS session is filtered out by the minimum
duration bound of five seconds. -/
theorem c5_witness :
    (smsSample.type = SessionType.SMS ∧ minFiveFilters.minDuration ≠ "") ∧
    smsSample ∉ filteredSessions [smsSample] minFiveFilters [] [] false [] [] :=
  ⟨⟨rfl, by decide⟩,
    c5_sms_rejected_by_duration_bounds [smsSample] minFiveFilters [] [] false [] [] smsSample
      rfl (Or.inl (by decide))⟩

/-- A missing duration, or a duration string that does not split into exactly
two or three colon-separated parts, parses to zero seconds. -/
theorem parseDuration_malformed_eq_zero (dur : Option String)
    (h : dur = none ∨ ∃ d, dur = some d ∧ (splitOnChar ':' d.data).length ≠ 2 ∧
      (splitOnChar ':' d.data).length ≠ 3) :
    parseDurationToSeconds dur = some 0 := by
  rcases h with h | ⟨d, rfl, h2, h3⟩
  · rw [h]
    rfl
  · simp only [parseDurationToSeconds]
    by_cases hd : d = ""
    · simp [hd]
    · rw [if_neg hd]
      cases hsplit : splitOnChar ':' d.data with
      | nil => simp [hsplit]
      | cons a rest =>
        cases rest with
        | nil => simp [hsplit]
        | cons b rest2 =>
          cases rest2 with
          | nil => exact absurd (by rw [hsplit]; rfl) h2
          | cons c rest3 =>
            cases rest3 with
            | nil => exact absurd (by rw [hsplit]; rfl) h3
            | cons e rest4 => simp [hsplit]

/-- C10 counterexample: the AUDIO session without a duration is rejected by a
filter set whose only active field is the maximum duration bound -1, because
the defaulted duration 0 exceeds the negative bound; the claim that a
maximum bound alone never rejects such a session is therefore false. -/
theorem c10_counterexample :
    audioNoDurSample.duration = none ∧
    sessionPasses [] (maxOnlyFilters "-1") audioNoDurSample = false := by decide

/-- C10 amended: an AUDIO session whose duration is absent or does not split
into two or three colon parts is treated as lasting 0 seconds: every filter
set whose minimum bound parses to a positive integer rejects it, and a
maximum duration bound alone never rejects it provided the bound parses to a
nonnegative integer or does not parse to a number at all. -/
theorem c10_missing_duration_default (amap : AliasMap) (s : Session) (f : Filters) (mx : String)
    (hA : s.type = SessionType.AUDIO)
    (hdur : s.duration = none ∨ ∃ d, s.duration = some d ∧
      (splitOnChar ':' d.data).length ≠ 2 ∧ (splitOnChar ':' d.data).length ≠ 3) :
    ((∃ m : Int, parseIntJS f.minDuration = some m ∧ 0 < m) →
      sessionPasses amap f s = false) ∧
    ((∀ m : Int, parseIntJS mx = some m → 0 ≤ m) →
      sessionPasses amap (maxOnlyFilters mx) s = true) := by
  have hzero : parseDurationToSeconds s.duration = some 0 :=
    parseDuration_malformed_eq_zero _ hdur
  constructor
  · rintro ⟨m, hm, hmpos⟩
    have hne : f.minDuration ≠ "" := by
      intro he
      rw [he] at hm
      exact Option.noConfusion ((rfl : parseIntJS "" = none) ▸ hm)
    have hd : passesDuration f s = false := by
      have hlt : ltJS (parseDurationToSeconds s.duration) (parseIntJS f.minDuration) = true := by
        rw [hzero, hm]
        simpa [ltJS] using hmpos
      simp [passesDuration, hne, hA, hlt]
    rw [sessionPasses, hd]
    rfl
  · intro hmx
    have hd : passesDuration (maxOnlyFilters mx) s = true := by
      by_cases hmxe : mx = ""
      · simp [passesDuration, maxOnlyFilters, emptyFilters, hmxe]
      · have hgt : gtJS (parseDurationToSeconds s.duration) (parseIntJS mx) = false := by
          rw [hzero]
          cases hpm : parseIntJS mx with
          | none => rfl
          | some m =>
            have hm0 := hmx m hpm
            simp [gtJS]
            omega
        simp [passesDuration, maxOnlyFilters, emptyFilters, hmxe, hA, hgt]
    rw [sessionPasses, hd]
    simp [passesSourceNumbers, passesDestNumbers, passesSourceSpeakers,
      passesDestSpeakers, passesSessionId, passesContent, passesDate, passesTime,
      maxOnlyFilters, emptyFilters]

/-- C10 witness: the concrete AUDIO session without a duration is rejected by
the minimum bound five and accepted by the maximum bound seven alone. -/
theorem c10_witness :
    (audioNoDurSample.type = SessionType.AUDIO ∧ audioNoDurSample.duration = none) ∧
    sessionPasses [] minFiveFilters audioNoDurSample = false ∧
    sessionPasses [] (maxOnlyFilters "7") audioNoDurSample = true :=
  ⟨⟨rfl, rfl⟩,
    (c10_missing_duration_default [] audioNoDurSample minFiveFilters "7" rfl (Or.inl rfl)).1
      ⟨5, by decide, by decide⟩,
    (c10_missing_duration_default [] audioNoDurSample minFiveFilters "7" rfl (Or.inl rfl)).2
      (fun m hm => by
        have h7 : parseIntJS "7" = some 7 := by decide
        rw [h7] at hm
        cases hm
        decide)⟩

/-- C6: the date sort of the sort stage does not tie-break equal dates by
start time. The two sessions share the date 02.03.2021; the second starts
five hours earlier, so the claimed start-time tie-break under ascending date
order would place it first; but the comparator keys both sessions with the
start time of its first argument, returns 0, and the stable sort keeps the
pipeline order, leaving the later-starting session first. -/
theorem c6_date_sort_ignores_start_time :
    tieLate.date = tieEarly.date ∧
    tieLate.startTime = some "10:00:00" ∧
    tieEarly.startTime = some "05:00:00" ∧
    explorerSortCompare SortOption.date_asc [] tieLate tieEarly = 0 ∧
    sortedSessionsExplorer [tieLate, tieEarly] SortOption.date_asc [] =
      [tieLate, tieEarly] := by decide
